import Mathlib

/-!
Shallow embedding of the greenboot-rs core (fedora-iot/greenboot-rs) in Lean 4.

Source files embedded:
  * src/lib/greenboot.rs  — diagnostics engine (run_diagnostics, run_scripts,
    run_red, run_green)
  * src/main.rs           — orchestrator (health_check, trigger_rollback,
    GreenbootConfig, check_previous_rollback, generate_motd_message)
  * src/handler/mount.rs  — mount guard (is_boot_rw, remount_boot_ro,
    remount_boot_rw, the BOOT_WAS_RO flag)

External effects (filesystem enumeration, child-process execution, syscalls,
collaborator calls) are modelled by explicit inputs carrying the outcome each
effect would produce, and each function additionally returns the trace of
effects it performed, so that ordering and omission of effects are provable.
-/

set_option autoImplicit false

deriving instance DecidableEq for Except

namespace Greenboot

/-- Outcome of executing one health-check artifact (Rust `Command::output()`):
either the process ran and exited (with a success flag and captured output
streams), or spawning failed with an error message. -/
inductive ExecOutcome where
  | exited (success : Bool) (stdout stderr : String)
  | spawnFailed (msg : String)
  deriving DecidableEq, Repr

/-- File metadata as consulted by the discovery filter in `run_scripts`
(Rust `fs::metadata`): regular-file flag and permission mode bits. -/
structure Metadata where
  isFile : Bool
  mode : Nat
  deriving DecidableEq, Repr

/-- One directory entry yielded by the glob enumeration in `run_scripts`,
together with the outcome executing it would produce. `fileName` and `ext`
are `none` when the Rust `OsStr`-to-UTF-8 conversion fails; `metadata` is
`none` when `fs::metadata` errors. -/
structure DirEntry where
  path : String
  fileName : Option String
  ext : Option String
  metadata : Option Metadata
  outcome : ExecOutcome
  deriving DecidableEq, Repr

/-- One greenboot install root (`/usr/lib/greenboot` or `/etc/greenboot`):
whether its `check/required.d/` path is a directory, and the glob listing of
each script directory (`Except.error` models a glob pattern error; a missing
or unreadable directory is an `Except.ok []` listing, as glob yields nothing). -/
structure InstallRoot where
  requiredIsDir : Bool
  requiredListing : Except String (List DirEntry)
  wantedListing : Except String (List DirEntry)
  redListing : Except String (List DirEntry)
  greenListing : Except String (List DirEntry)
  deriving DecidableEq, Repr

/-- Aggregated result of `run_scripts` (Rust struct `ScriptRunResult`):
error records (modelled by their message strings) and skipped file names. -/
structure ScriptRunResult where
  errors : List String
  skipped : List String
  deriving DecidableEq, Repr

/-- Skip-list membership test: Rust `disabled.contains(&file_name.to_string())`
under `if let Some(disabled) = disabled_scripts`. -/
def isDisabled (disabled : Option (List String)) (fn : String) : Bool :=
  match disabled with
  | none => false
  | some l => l.contains fn

/-- Discovery filter applied to each glob entry in `run_scripts`: metadata must
be readable, the entry a regular file, and either the extension is `sh` or one
of the three execute permission bits is set. -/
def validEntry (e : DirEntry) : Bool :=
  match e.metadata with
  | some m =>
      m.isFile &&
        (e.ext == some "sh" ||
          (m.mode &&& 0o001 != 0 || m.mode &&& 0o010 != 0 || m.mode &&& 0o100 != 0))
  | none => false

/-- Error message pushed for a non-zero exit status in `run_scripts`
(Rust `format!("{} script {} failed!\n{}\n{}", ...)`). -/
def errMsg (name : String) (e : DirEntry) (out err : String) : String :=
  name ++ " script " ++ e.path ++ " failed!\n" ++ out ++ "\n" ++ err

/-- Error record produced by an entry whose execution does not succeed:
the formatted message for a non-zero exit, the spawn error text otherwise. -/
def failRecord (name : String) (e : DirEntry) : String :=
  match e.outcome with
  | .exited _ out err => errMsg name e out err
  | .spawnFailed m => m

/-- Whether processing this entry yields a failure record in `run_scripts`:
its file name is representable, not in the skip list, and execution does not
succeed (non-zero exit or spawn failure). -/
def yieldsFailure (disabled : Option (List String)) (e : DirEntry) : Bool :=
  match e.fileName with
  | none => false
  | some fn =>
      !isDisabled disabled fn &&
        (match e.outcome with
         | .exited true _ _ => false
         | _ => true)

/-- Whether `run_scripts` executes this (already filtered) entry: its file name
is representable and not in the skip list. -/
def runsEntry (disabled : Option (List String)) (e : DirEntry) : Bool :=
  match e.fileName with
  | none => false
  | some fn => !isDisabled disabled fn

/-- The per-entry loop of `run_scripts` over the filtered entries, returning
the aggregated result together with the list of entries actually executed
(the observable child-process spawns, in order). Mirrors the Rust loop body:
unrepresentable names are skipped silently, disabled names are recorded as
skipped, otherwise the entry is executed; a non-success outcome pushes a
failure record and, when the tier name is `"required"`, breaks the loop. -/
def runLoop (name : String) (disabled : Option (List String)) :
    List DirEntry → ScriptRunResult × List DirEntry
  | [] => (⟨[], []⟩, [])
  | e :: rest =>
    match e.fileName with
    | none => runLoop name disabled rest
    | some fn =>
      if isDisabled disabled fn then
        let (r, ex) := runLoop name disabled rest
        (⟨r.errors, fn :: r.skipped⟩, ex)
      else
        match e.outcome with
        | .exited true _ _ =>
          let (r, ex) := runLoop name disabled rest
          (r, e :: ex)
        | .exited false out err =>
          if name == "required" then (⟨[errMsg name e out err], []⟩, [e])
          else
            let (r, ex) := runLoop name disabled rest
            (⟨errMsg name e out err :: r.errors, r.skipped⟩, e :: ex)
        | .spawnFailed m =>
          if name == "required" then (⟨[m], []⟩, [e])
          else
            let (r, ex) := runLoop name disabled rest
            (⟨m :: r.errors, r.skipped⟩, e :: ex)

/-- Rust `run_scripts(name, path, disabled_scripts)`: a glob pattern error is
returned as a single error record with nothing executed; otherwise the entries
are filtered by `validEntry` and processed by the loop. -/
def run_scripts (name : String) (listing : Except String (List DirEntry))
    (disabled : Option (List String)) : ScriptRunResult × List DirEntry :=
  match listing with
  | .error e => (⟨[e], []⟩, [])
  | .ok entries => runLoop name disabled (entries.filter validEntry)

/-- Mutable state threaded through `run_diagnostics`: the `path_exists` flag,
the accumulated `all_skipped` set (modelled as a list, membership-relevant
only), and the trace of executed entries. -/
structure DiagState where
  pathExists : Bool
  allSkipped : List String
  executed : List DirEntry
  deriving DecidableEq, Repr

/-- The required-checks loop of `run_diagnostics`: roots whose required
directory is missing are skipped with a warning; otherwise the required tier
is run, skips and executions recorded, and a non-empty error list bails with
the fixed message (returned as `some msg` together with the state reached). -/
def requiredGo (skipped : List String) (st : DiagState) :
    List InstallRoot → DiagState × Option String
  | [] => (st, none)
  | r :: rest =>
    if r.requiredIsDir then
      let (res, ex) := run_scripts "required" r.requiredListing (some skipped)
      let st2 : DiagState :=
        ⟨true, st.allSkipped ++ res.skipped, st.executed ++ ex⟩
      if res.errors.isEmpty then requiredGo skipped st2 rest
      else (st2, some "required health-check failed, skipping remaining scripts")
    else requiredGo skipped st rest

/-- The wanted-checks loop of `run_diagnostics`: every root is processed
unconditionally, skips and executions recorded, errors only logged. -/
def wantedGo (skipped : List String) (st : DiagState) :
    List InstallRoot → DiagState
  | [] => st
  | r :: rest =>
    let (res, ex) := run_scripts "wanted" r.wantedListing (some skipped)
    wantedGo skipped ⟨st.pathExists, st.allSkipped ++ res.skipped, st.executed ++ ex⟩ rest

/-- Observable outcome of `run_diagnostics`: the returned `Result`, the final
`all_skipped` accumulation, and the trace of executed entries. -/
structure DiagOutcome where
  result : Except String (List String)
  allSkipped : List String
  executed : List DirEntry
  deriving DecidableEq, Repr

/-- Rust `run_diagnostics(skipped)` generalised over the list of install
roots: required phase (bailing on the first root with errors), the
`path_exists` check, the wanted phase, and the missing-disabled set
difference `disabled_scripts − all_skipped` (de-duplicated, as the Rust side
builds a `HashSet` from the input vector). -/
def diagnosticsRun (roots : List InstallRoot) (skipped : List String) : DiagOutcome :=
  match requiredGo skipped ⟨false, [], []⟩ roots with
  | (st, some e) => ⟨.error e, st.allSkipped, st.executed⟩
  | (st, none) =>
    if st.pathExists then
      let st2 := wantedGo skipped st roots
      let missing := skipped.dedup.filter (fun n => !st2.allSkipped.contains n)
      ⟨.ok missing, st2.allSkipped, st2.executed⟩
    else ⟨.error "cannot find any required.d folder", st.allSkipped, st.executed⟩

/-- Rust `run_diagnostics` over the two fixed install roots of
`GREENBOOT_INSTALL_PATHS` (`/usr/lib/greenboot`, `/etc/greenboot`). -/
def run_diagnostics (r0 r1 : InstallRoot) (skipped : List String) : DiagOutcome :=
  diagnosticsRun [r0, r1] skipped

/-- Rust `run_red`, generalised over the install-root list: runs every root's
`red.d/` listing with no skip list, accumulating error records, together with
the executed-entry trace. -/
def run_red : List InstallRoot → List String × List DirEntry
  | [] => ([], [])
  | r :: rest =>
    let (res, ex) := run_scripts "red" r.redListing none
    let (es, exs) := run_red rest
    (res.errors ++ es, ex ++ exs)

/-- Rust `run_green`, generalised over the install-root list: runs every
root's `green.d/` listing with no skip list, accumulating error records,
together with the executed-entry trace. -/
def run_green : List InstallRoot → List String × List DirEntry
  | [] => ([], [])
  | r :: rest =>
    let (res, ex) := run_scripts "green" r.greenListing none
    let (es, exs) := run_green rest
    (res.errors ++ es, ex ++ exs)

/-! ### Mount guard (src/handler/mount.rs) -/

/-- Substring containment on character lists: Rust `str::contains(pat)`,
true when `pat` occurs contiguously anywhere in the haystack. -/
def listContainsSub (pat : List Char) : List Char → Bool
  | [] => pat.isEmpty
  | c :: t => pat.isPrefixOf (c :: t) || listContainsSub pat t

/-- Substring containment on strings, via the character lists. -/
def strContains (s pat : String) : Bool :=
  listContainsSub pat.toList s.toList

/-- Accumulating pass behind `splitWhitespace`: `cur` holds the characters of
the field being read, in reverse. -/
def fieldsAux : List Char → List Char → List (List Char)
  | cur, [] => if cur = [] then [] else [cur.reverse]
  | cur, c :: rest =>
    if c.isWhitespace then
      if cur = [] then fieldsAux [] rest else cur.reverse :: fieldsAux [] rest
    else fieldsAux (c :: cur) rest

/-- Rust `line.split_whitespace().collect()`: whitespace-delimited fields,
empty fields discarded. -/
def splitWhitespace (s : String) : List String :=
  (fieldsAux [] s.toList).map List.asString

/-- Mount-point field of a mount-table record: `parts.get(1)`. -/
def mountPointOf (line : String) : Option String :=
  (splitWhitespace line)[1]?

/-- Options field of a mount-table record: `parts.get(3).unwrap_or(&"")`. -/
def optionsOf (line : String) : String :=
  ((splitWhitespace line)[3]?).getD ""

/-- Whitespace trimming at both ends of a character list. -/
def trimChars (l : List Char) : List Char :=
  ((l.dropWhile Char.isWhitespace).reverse.dropWhile Char.isWhitespace).reverse

/-- Rust `str::trim()`: the string with leading and trailing whitespace
removed. -/
def strTrim (s : String) : String :=
  (trimChars s.toList).asString

/-- Error type of the mount guard (Rust enum `MountError`). -/
inductive MountError where
  | RemountFailed (msg : String)
  | MountInfoError
  deriving DecidableEq, Repr

/-- Scan of the mount-table lines in `is_boot_rw`: the first record whose
mount-point field equals `/boot` decides, read-write exactly when its options
field contains the substring `rw` and not the substring `ro`; no matching
record ends in `MountInfoError`. -/
def is_boot_rw_lines : List String → Except MountError Bool
  | [] => .error .MountInfoError
  | line :: rest =>
    if mountPointOf line = some "/boot" then
      .ok (strContains (optionsOf line) "rw" && !strContains (optionsOf line) "ro")
    else is_boot_rw_lines rest

/-- External world of one mount-guard call: the content of `/proc/mounts` as
a list of lines (`Except.error` models a read failure), and the outcome the
`mount(2)` remount syscall would produce if issued. -/
structure MountWorld where
  mountsFile : Except Unit (List String)
  remountResult : Except String Unit
  deriving DecidableEq, Repr

/-- Rust `is_boot_rw()`: a read failure of `/proc/mounts` maps to
`MountInfoError`, otherwise the line scan decides. -/
def is_boot_rw (w : MountWorld) : Except MountError Bool :=
  match w.mountsFile with
  | .error _ => .error .MountInfoError
  | .ok lines => is_boot_rw_lines lines

/-- Observable remount syscall, tagged with whether it carried
`MS_REMOUNT|MS_RDONLY` (true) or `MS_REMOUNT|MS_BIND` (false). -/
inductive MountEvent where
  | remount (rdonly : Bool)
  deriving DecidableEq, Repr

/-- Result of one mount-guard operation: the returned value, the value of the
process-wide `BOOT_WAS_RO` flag after the call, and the syscalls issued. -/
structure MountOutcome where
  result : Except MountError Unit
  flag : Bool
  events : List MountEvent
  deriving DecidableEq, Repr

/-- Rust `remount_boot_ro()`: queries the mount state; when read-write,
issues a read-only remount and on success stores true into `BOOT_WAS_RO`;
when already read-only, returns success without a syscall. `flag` is the
value of `BOOT_WAS_RO` on entry. -/
def remount_boot_ro (w : MountWorld) (flag : Bool) : MountOutcome :=
  match is_boot_rw w with
  | .error e => ⟨.error e, flag, []⟩
  | .ok true =>
    match w.remountResult with
    | .error m => ⟨.error (.RemountFailed m), flag, [.remount true]⟩
    | .ok _ => ⟨.ok (), true, [.remount true]⟩
  | .ok false => ⟨.ok (), flag, []⟩

/-- Rust `remount_boot_rw()`: queries the mount state; when read-only,
issues a bind remount and on success stores true into `BOOT_WAS_RO`;
when already read-write, returns success without a syscall. -/
def remount_boot_rw (w : MountWorld) (flag : Bool) : MountOutcome :=
  match is_boot_rw w with
  | .error e => ⟨.error e, flag, []⟩
  | .ok false =>
    match w.remountResult with
    | .error m => ⟨.error (.RemountFailed m), flag, [.remount false]⟩
    | .ok _ => ⟨.ok (), true, [.remount false]⟩
  | .ok true => ⟨.ok (), flag, []⟩

/-! ### Orchestrator (src/main.rs) -/

/-- Rust `GreenbootConfig::get_config()`: the outer `Except` is the INI file
parse (`Config::builder().build()`), the inner one the
`GREENBOOT_MAX_BOOT_ATTEMPTS` integer lookup; any failure, and any value
outside the `u16` range of `try_into`, falls back to the default 3. -/
def getMaxReboot (config : Except String (Except String Int)) : Nat :=
  match config with
  | .error _ => 3
  | .ok r =>
    match r with
    | .error _ => 3
    | .ok c => if 0 ≤ c ∧ c ≤ 65535 then c.toNat else 3

/-- Captured result of the `journalctl -b -1 -u greenboot-rollback.service`
child process in `check_previous_rollback`: exit-status success flag, stdout
(`Except.error` models invalid UTF-8), and stderr. -/
structure JournalRun where
  success : Bool
  stdout : Except String String
  stderr : String
  deriving DecidableEq, Repr

/-- Rust `check_previous_rollback()`: a spawn failure or invalid UTF-8 output
propagates as an error; a failed exit status or empty output yields false;
otherwise the presence of the literal `Rollback successful` decides. -/
def check_previous_rollback (j : Except String JournalRun) : Except String Bool :=
  match j with
  | .error e =>
    .error ("Failed to execute journalctl command to check rollback status: " ++ e)
  | .ok o =>
    if o.success then
      match o.stdout with
      | .error e => .error ("Failed to parse journalctl output as UTF-8: " ++ e)
      | .ok out =>
        if strTrim out = "" then .ok false
        else .ok (strContains out "Rollback successful")
    else .ok false

/-- Rust `generate_motd_message(base_msg, previous_rollback)` (always `Ok`):
the fallback-boot banner is prepended when a prior rollback was detected. -/
def generate_motd_message (baseMsg : String) (previousRollback : Bool) : String :=
  (if previousRollback then
      "FALLBACK BOOT DETECTED! Default bootc deployment has been rolled back.\n"
    else "") ++ baseMsg

/-- Observable collaborator calls of the two orchestrator flows, recorded
when the call is attempted, whatever its outcome. -/
inductive Event where
  | motd (msg : String)
  | runGreen
  | runRed
  | setBootStatus (success : Bool)
  | setBootCounter (maxReboot : Nat)
  | reboot (immediate : Bool)
  | rollback
  | unsetBootCounter
  deriving DecidableEq, Repr

/-- External world of one `health_check` invocation: the outcome each
collaborator call would produce, per call site. -/
structure HealthWorld where
  config : Except String (Except String Int)
  journal : Except String JournalRun
  motdInitial : Except String Unit
  diagnostics : Except String Unit
  greenErrors : List String
  motdGreen : Except String Unit
  setBootStatusTrue : Except String Unit
  motdRed : Except String Unit
  redErrors : List String
  setBootStatusFalse : Except String Unit
  setBootCounter : Except String Unit
  rebootNonImmediate : Except String Unit
  deriving DecidableEq, Repr

/-- Previous-rollback flag as computed inside `health_check`: a failing
`check_previous_rollback` defaults to false with a warning. -/
def previousRollback (w : HealthWorld) : Bool :=
  match check_previous_rollback w.journal with
  | .ok s => s
  | .error _ => false

/-- Rust `health_check()`: loads the config, computes the previous-rollback
flag, publishes the initial MOTD (a failure there propagates), then branches
on `run_diagnostics()`. On success: `run_green` (errors logged), GREEN MOTD
(failure swallowed), `set_boot_status(true, ..)?` (failure propagates). On
failure: RED MOTD, `run_red`, `set_boot_status(false, ..)`,
`set_boot_counter`, `handle_reboot(false)` — each failure swallowed — then
`bail!("greenboot healthcheck failed")`. Returns the result together with
the trace of collaborator calls attempted. -/
def health_check (w : HealthWorld) : Except String Unit × List Event :=
  let initialMsg :=
    generate_motd_message "Greenboot healthcheck is in progress" (previousRollback w)
  match w.motdInitial with
  | .error e => (.error e, [.motd initialMsg])
  | .ok _ =>
    match w.diagnostics with
    | .ok _ =>
      (w.setBootStatusTrue,
        [.motd initialMsg, .runGreen,
          .motd (generate_motd_message "Greenboot healthcheck passed - status is GREEN"
            (previousRollback w)),
          .setBootStatus true])
    | .error _ =>
      (.error "greenboot healthcheck failed",
        [.motd initialMsg,
          .motd (generate_motd_message "Greenboot healthcheck failed - status is RED"
            (previousRollback w)),
          .runRed, .setBootStatus false,
          .setBootCounter (getMaxReboot w.config), .reboot false])

/-- External world of one `trigger_rollback` invocation. -/
structure RollbackWorld where
  rollback : Except String Unit
  unsetBootCounter : Except String Unit
  rebootImmediate : Except String Unit
  deriving DecidableEq, Repr

/-- Rust `trigger_rollback()`: on `handle_rollback()` success,
`unset_boot_counter(..)?` (failure propagates) then `handle_reboot(true)`;
on failure, `bail!("{e}, Rollback is not initiated")` with nothing else
attempted. Returns the result and the trace of collaborator calls. -/
def trigger_rollback (w : RollbackWorld) : Except String Unit × List Event :=
  match w.rollback with
  | .ok _ =>
    match w.unsetBootCounter with
    | .error e => (.error e, [.rollback, .unsetBootCounter])
    | .ok _ => (w.rebootImmediate, [.rollback, .unsetBootCounter, .reboot true])
  | .error e => (.error (e ++ ", Rollback is not initiated"), [.rollback])

/-! ### Concrete sample inputs used to instantiate the theorems -/

/-- Sample entry: a passing shell script. -/
def entPass : DirEntry :=
  ⟨"/usr/lib/greenboot/check/required.d/ok.sh", some "ok.sh", some "sh",
    some ⟨true, 0o644⟩, .exited true "" ""⟩

/-- Sample entry: a shell script failing with exit status 1. -/
def entFail : DirEntry :=
  ⟨"/usr/lib/greenboot/check/required.d/bad.sh", some "bad.sh", some "sh",
    some ⟨true, 0o755⟩, .exited false "out" "err"⟩

/-- Sample entry: an executable binary that also fails. -/
def entFail2 : DirEntry :=
  ⟨"/usr/lib/greenboot/check/required.d/bad2", some "bad2", none,
    some ⟨true, 0o755⟩, .spawnFailed "boom"⟩

/-- Sample install root whose required directory holds a passing script, a
failing script and a failing binary. -/
def rootFailing : InstallRoot :=
  ⟨true, .ok [entPass, entFail, entFail2], .ok [entPass], .ok [], .ok []⟩

/-- Sample install root whose directories all pass. -/
def rootPassing : InstallRoot :=
  ⟨true, .ok [entPass], .ok [entPass], .ok [entPass], .ok [entPass]⟩

/-- Sample install root with no required directory. -/
def rootNoDir : InstallRoot :=
  ⟨false, .ok [], .ok [], .ok [], .ok []⟩

/-- Sample mount table whose `/boot` record is read-only. -/
def mountTableRO : List String :=
  ["/dev/sda1 / ext4 rw,relatime 0 0", "/dev/sda2 /boot ext4 ro,relatime 0 0"]

/-- Sample mount table whose `/boot` record is read-write. -/
def mountTableRW : List String :=
  ["/dev/sda1 / ext4 rw,relatime 0 0", "/dev/sda2 /boot ext4 rw,relatime 0 0"]

/-- Sample mount table with no `/boot` record. -/
def mountTableNoBoot : List String :=
  ["/dev/sda1 / ext4 rw,relatime 0 0"]

/-- Sample mount world: `/boot` already read-only, syscall would succeed. -/
def mworldRO : MountWorld := ⟨.ok mountTableRO, .ok ()⟩

/-- Sample mount world: `/boot` read-write, syscall would succeed. -/
def mworldRW : MountWorld := ⟨.ok mountTableRW, .ok ()⟩

/-- Sample journal run with no rollback marker. -/
def journalQuiet : JournalRun := ⟨true, .ok "", ""⟩

/-- Sample health world in which diagnostics fail and every remediation
collaborator also fails. -/
def redWorld : HealthWorld :=
  ⟨.ok (.ok 5), .ok journalQuiet, .ok (), .error "diag failed", ["g"],
    .error "motd failed", .error "status failed", .error "motd failed",
    ["r"], .error "status failed", .error "counter failed", .error "reboot failed"⟩

/-- Sample health world in which diagnostics succeed and every collaborator
succeeds. -/
def greenWorld : HealthWorld :=
  ⟨.ok (.ok 3), .ok journalQuiet, .ok (), .ok (), [], .ok (), .ok (),
    .ok (), [], .ok (), .ok (), .ok ()⟩

/-- Sample health world in which diagnostics succeed but persisting the
success boot status fails. -/
def greenWorldStatusFail : HealthWorld :=
  ⟨.ok (.ok 3), .ok journalQuiet, .ok (), .ok (), [], .ok (),
    .error "status persist failed", .ok (), [], .ok (), .ok (), .ok ()⟩

/-- Sample rollback world in which every collaborator succeeds. -/
def rbWorldOk : RollbackWorld := ⟨.ok (), .ok (), .ok ()⟩

/-- Sample rollback world in which the rollback collaborator fails. -/
def rbWorldFail : RollbackWorld := ⟨.error "deploy pin failed", .ok (), .ok ()⟩

/-- Sample rollback world in which clearing the boot counter fails. -/
def rbWorldCounterFail : RollbackWorld := ⟨.ok (), .error "grubenv write failed", .ok ()⟩

/-! ### Helper lemmas: mount guard -/

/-- The mount-table scan skips every leading record whose mount-point field
is not `/boot` and decides on the first record whose field is. -/
lemma is_boot_rw_lines_first (pre : List String) (line : String) (post : List String)
    (hpre : ∀ p ∈ pre, mountPointOf p ≠ some "/boot")
    (hline : mountPointOf line = some "/boot") :
    is_boot_rw_lines (pre ++ line :: post) =
      .ok (strContains (optionsOf line) "rw" && !strContains (optionsOf line) "ro") := by
  induction pre with
  | nil => simp [is_boot_rw_lines, hline]
  | cons p t ih =>
    have hp : mountPointOf p ≠ some "/boot" := hpre p (by simp)
    simpa [is_boot_rw_lines, hp] using ih (fun q hq => hpre q (by simp [hq]))

/-- The mount-table scan fails when no record's mount-point field is `/boot`. -/
lemma is_boot_rw_lines_none (lines : List String)
    (h : ∀ l ∈ lines, mountPointOf l ≠ some "/boot") :
    is_boot_rw_lines lines = .error .MountInfoError := by
  induction lines with
  | nil => rfl
  | cons p t ih =>
    have hp : mountPointOf p ≠ some "/boot" := h p (by simp)
    simpa [is_boot_rw_lines, hp] using ih (fun q hq => h q (by simp [hq]))

/-! ### Claim theorems: mount guard -/

/-- C7: MountGuard remount operations are idempotent — when the queried state
already matches the request (`remount_boot_ro` on a read-only partition,
`remount_boot_rw` on a read-write one) no remount syscall is issued, the flag
is untouched and the call returns success; and a remount syscall is issued
only when the queried state differs from the requested one. -/
theorem C7_remount_idempotent (w : MountWorld) (flag : Bool) :
    (is_boot_rw w = .ok false → remount_boot_ro w flag = ⟨.ok (), flag, []⟩) ∧
    (is_boot_rw w = .ok true → remount_boot_rw w flag = ⟨.ok (), flag, []⟩) ∧
    ((remount_boot_ro w flag).events ≠ [] → is_boot_rw w = .ok true) ∧
    ((remount_boot_rw w flag).events ≠ [] → is_boot_rw w = .ok false) := by
  refine ⟨fun h => by simp [remount_boot_ro, h], fun h => by simp [remount_boot_rw, h], ?_, ?_⟩
  · intro h
    cases hq : is_boot_rw w with
    | error e => simp [remount_boot_ro, hq] at h
    | ok b =>
      cases b with
      | true => rfl
      | false => simp [remount_boot_ro, hq] at h
  · intro h
    cases hq : is_boot_rw w with
    | error e => simp [remount_boot_rw, hq] at h
    | ok b =>
      cases b with
      | false => rfl
      | true => simp [remount_boot_rw, hq] at h

/-- C7 witness: on a concrete read-only mount table `remount_boot_ro` is a
successful no-op, and on a concrete read-write table so is `remount_boot_rw`. -/
theorem C7_remount_idempotent_witness :
    remount_boot_ro mworldRO false = ⟨.ok (), false, []⟩ ∧
    remount_boot_rw mworldRW false = ⟨.ok (), false, []⟩ :=
  ⟨(C7_remount_idempotent mworldRO false).1 (by rfl),
    (C7_remount_idempotent mworldRW false).2.1 (by rfl)⟩

/-- C8: the mount-state query decides on the first mount-table record whose
mount-point field equals `/boot`, returning read-write exactly when that
record's options field contains the substring `rw` and not the substring
`ro`; when no record's mount-point field equals `/boot` it fails with
`MountInfoError`. -/
theorem C8_is_boot_rw_first_record (lines : List String) :
    ((∀ l ∈ lines, mountPointOf l ≠ some "/boot") →
      is_boot_rw_lines lines = .error .MountInfoError) ∧
    (∀ pre line post, lines = pre ++ line :: post →
      (∀ p ∈ pre, mountPointOf p ≠ some "/boot") →
      mountPointOf line = some "/boot" →
      is_boot_rw_lines lines =
        .ok (strContains (optionsOf line) "rw" && !strContains (optionsOf line) "ro")) := by
  refine ⟨is_boot_rw_lines_none lines, ?_⟩
  intro pre line post hdec hpre hline
  rw [hdec]
  exact is_boot_rw_lines_first pre line post hpre hline

/-- C8 witness: the no-`/boot` table fails with `MountInfoError`, and the
read-only table is decided by its second record as not read-write. -/
theorem C8_is_boot_rw_first_record_witness :
    is_boot_rw_lines mountTableNoBoot = .error .MountInfoError ∧
    is_boot_rw_lines mountTableRO = .ok false :=
  ⟨(C8_is_boot_rw_first_record mountTableNoBoot).1 (by decide),
    (C8_is_boot_rw_first_record mountTableRO).2
      ["/dev/sda1 / ext4 rw,relatime 0 0"] "/dev/sda2 /boot ext4 ro,relatime 0 0" []
      (by rfl) (by decide) (by rfl)⟩

/-- C10: the process-wide `BOOT_WAS_RO` flag is write-only — both remount
operations return the same result and issue the same syscalls for any two
initial flag values, and the flag is stored true exactly on a successful
remount syscall, otherwise left at its initial value. -/
theorem C10_flag_write_only (w : MountWorld) (f g : Bool) :
    (remount_boot_ro w f).result = (remount_boot_ro w g).result ∧
    (remount_boot_ro w f).events = (remount_boot_ro w g).events ∧
    (remount_boot_rw w f).result = (remount_boot_rw w g).result ∧
    (remount_boot_rw w f).events = (remount_boot_rw w g).events ∧
    (remount_boot_ro w f).flag =
      (if is_boot_rw w = .ok true ∧ w.remountResult = .ok () then true else f) ∧
    (remount_boot_rw w f).flag =
      (if is_boot_rw w = .ok false ∧ w.remountResult = .ok () then true else f) := by
  cases hq : is_boot_rw w with
  | error e => simp [remount_boot_ro, remount_boot_rw, hq]
  | ok b =>
    cases hr : w.remountResult with
    | error m => cases b <;> simp [remount_boot_ro, remount_boot_rw, hq, hr]
    | ok u => cases b <;> cases u <;> simp [remount_boot_ro, remount_boot_rw, hq, hr]

/-! ### Claim theorems: orchestrator -/

/-- C3: in the health-check RED path, once diagnostics fail, every
remediation step is attempted in order — RED MOTD, red-tier hooks, boot
status persistence, boot counter persistence, non-immediate reboot — and the
flow terminates with the error `greenboot healthcheck failed`. The world `w`
is arbitrary, so the result and the attempted-call trace are the same
whatever any remediation collaborator returns: a failure in any one step is
swallowed and never skips the next. -/
theorem C3_red_path_best_effort (w : HealthWorld) (e : String)
    (hm : w.motdInitial = .ok ()) (hd : w.diagnostics = .error e) :
    health_check w =
      (.error "greenboot healthcheck failed",
        [.motd (generate_motd_message "Greenboot healthcheck is in progress"
            (previousRollback w)),
          .motd (generate_motd_message "Greenboot healthcheck failed - status is RED"
            (previousRollback w)),
          .runRed, .setBootStatus false,
          .setBootCounter (getMaxReboot w.config), .reboot false]) := by
  simp [health_check, hm, hd]

/-- C3 witness: with diagnostics failing and every remediation collaborator
also failing, all five remediation steps are still attempted and the flow
reports `greenboot healthcheck failed`. -/
theorem C3_red_path_best_effort_witness :
    health_check redWorld =
      (.error "greenboot healthcheck failed",
        [.motd "Greenboot healthcheck is in progress",
          .motd "Greenboot healthcheck failed - status is RED",
          .runRed, .setBootStatus false, .setBootCounter 5, .reboot false]) :=
  C3_red_path_best_effort redWorld "diag failed" (by rfl) (by rfl)

/-- C4: the rollback flow invokes the rollback collaborator exactly once; on
success the boot counter is cleared with a clearing failure propagated as
fatal (and no reboot attempted), and only after a successful clear is an
immediate reboot requested; on failure the flow aborts with the
collaborator's detail followed by `, Rollback is not initiated`, with no
counter operation and no reboot attempted. -/
theorem C4_rollback_flow (w : RollbackWorld) :
    (trigger_rollback w).2.count .rollback = 1 ∧
    (∀ e, w.rollback = .error e →
      trigger_rollback w =
        (.error (e ++ ", Rollback is not initiated"), [.rollback])) ∧
    (w.rollback = .ok () →
      (∀ e, w.unsetBootCounter = .error e →
        trigger_rollback w = (.error e, [.rollback, .unsetBootCounter])) ∧
      (w.unsetBootCounter = .ok () →
        trigger_rollback w =
          (w.rebootImmediate, [.rollback, .unsetBootCounter, .reboot true]))) := by
  refine ⟨?_, ?_, ?_⟩
  · cases hr : w.rollback with
    | error e => simp [trigger_rollback, hr]
    | ok u =>
      cases u
      cases hc : w.unsetBootCounter with
      | error m => simp [trigger_rollback, hr, hc]
      | ok v => cases v; simp [trigger_rollback, hr, hc]
  · intro e he
    simp [trigger_rollback, he]
  · intro hr
    refine ⟨fun e he => by simp [trigger_rollback, hr, he], fun hc => by simp [trigger_rollback, hr, hc]⟩

/-- C4 witness: on concrete worlds, a failing rollback collaborator aborts
with the composed message and only the rollback call in the trace, and a
failing counter clear after a successful rollback propagates with no reboot. -/
theorem C4_rollback_flow_witness :
    trigger_rollback rbWorldFail =
      (.error "deploy pin failed, Rollback is not initiated", [.rollback]) ∧
    trigger_rollback rbWorldCounterFail =
      (.error "grubenv write failed", [.rollback, .unsetBootCounter]) ∧
    trigger_rollback rbWorldOk =
      (.ok (), [.rollback, .unsetBootCounter, .reboot true]) :=
  ⟨(C4_rollback_flow rbWorldFail).2.1 "deploy pin failed" (by rfl),
    ((C4_rollback_flow rbWorldCounterFail).2.2 (by rfl)).1 "grubenv write failed" (by rfl),
    ((C4_rollback_flow rbWorldOk).2.2 (by rfl)).2 (by rfl)⟩

/-- C9 counterexample: a world in which diagnostics succeed but persisting
the success boot status fails; `health_check` then terminates with that
error, not with success, refuting the claim that the GREEN path always
terminates with success once diagnostics succeed. -/
theorem C9_counterexample :
    greenWorldStatusFail.diagnostics = .ok () ∧
    (health_check greenWorldStatusFail).1 = .error "status persist failed" ∧
    (health_check greenWorldStatusFail).1 ≠ .ok () := by
  refine ⟨rfl, rfl, ?_⟩
  intro h
  rw [show (health_check greenWorldStatusFail).1 = .error "status persist failed" from rfl] at h
  exact Except.noConfusion h

/-- C9 (amended): in the GREEN path, whenever the initial MOTD is published
and diagnostics succeed, the flow runs the green hooks, publishes the GREEN
MOTD and persists boot status = success, in that order, with green-hook
errors and MOTD publish failures never affecting the result; the result is
exactly the status-persistence outcome, so persistence failure propagates
and the flow terminates with success when persistence succeeds. -/
theorem C9_green_path (w : HealthWorld)
    (hm : w.motdInitial = .ok ()) (hd : w.diagnostics = .ok ()) :
    health_check w =
      (w.setBootStatusTrue,
        [.motd (generate_motd_message "Greenboot healthcheck is in progress"
            (previousRollback w)),
          .runGreen,
          .motd (generate_motd_message "Greenboot healthcheck passed - status is GREEN"
            (previousRollback w)),
          .setBootStatus true]) := by
  simp [health_check, hm, hd]

/-- C9 witness: on a concrete world where every collaborator succeeds, the
GREEN path publishes both MOTD messages, runs the green hooks, persists the
success status and terminates with success. -/
theorem C9_green_path_witness :
    health_check greenWorld =
      (.ok (),
        [.motd "Greenboot healthcheck is in progress", .runGreen,
          .motd "Greenboot healthcheck passed - status is GREEN",
          .setBootStatus true]) :=
  C9_green_path greenWorld (by rfl) (by rfl)

/-! ### Helper lemmas: script loop -/

/-- Every entry executed by the script loop has a representable file name
that is not in the skip list. -/
lemma runLoop_executed_mem (name : String) (d : Option (List String)) :
    ∀ (l : List DirEntry) (e : DirEntry), e ∈ (runLoop name d l).2 →
      ∃ fn, e.fileName = some fn ∧ isDisabled d fn = false := by
  intro l
  induction l with
  | nil => intro e he; simp [runLoop] at he
  | cons x t ih =>
    intro e he
    cases hf : x.fileName with
    | none =>
      simp only [runLoop, hf] at he
      exact ih e he
    | some fn =>
      cases hdis : isDisabled d fn with
      | true =>
        simp only [runLoop, hf, hdis, if_pos rfl] at he
        exact ih e he
      | false =>
        cases ho : x.outcome with
        | exited s out err =>
          cases s with
          | true =>
            simp only [runLoop, hf, hdis, ho, Bool.false_eq_true, if_false] at he
            rcases List.mem_cons.mp he with rfl | he2
            · exact ⟨fn, hf, hdis⟩
            · exact ih e he2
          | false =>
            simp only [runLoop, hf, hdis, ho, Bool.false_eq_true, if_false] at he
            cases hreq : name == "required" with
            | true =>
              simp only [hreq, if_pos rfl] at he
              rcases List.mem_singleton.mp he with rfl
              exact ⟨fn, hf, hdis⟩
            | false =>
              simp only [hreq, Bool.false_eq_true, if_false] at he
              rcases List.mem_cons.mp he with rfl | he2
              · exact ⟨fn, hf, hdis⟩
              · exact ih e he2
        | spawnFailed m =>
          simp only [runLoop, hf, hdis, ho, Bool.false_eq_true, if_false] at he
          cases hreq : name == "required" with
          | true =>
            simp only [hreq, if_pos rfl] at he
            rcases List.mem_singleton.mp he with rfl
            exact ⟨fn, hf, hdis⟩
          | false =>
            simp only [hreq, Bool.false_eq_true, if_false] at he
            rcases List.mem_cons.mp he with rfl | he2
            · exact ⟨fn, hf, hdis⟩
            · exact ih e he2

/-- Every name the script loop records as skipped is in the skip list. -/
lemma runLoop_skipped_mem (name : String) (d : Option (List String)) :
    ∀ (l : List DirEntry) (n : String), n ∈ (runLoop name d l).1.skipped →
      isDisabled d n = true := by
  intro l
  induction l with
  | nil => intro n hn; simp [runLoop] at hn
  | cons x t ih =>
    intro n hn
    cases hf : x.fileName with
    | none =>
      simp only [runLoop, hf] at hn
      exact ih n hn
    | some fn =>
      cases hdis : isDisabled d fn with
      | true =>
        simp only [runLoop, hf, hdis, if_pos rfl] at hn
        rcases List.mem_cons.mp hn with rfl | hn2
        · exact hdis
        · exact ih n hn2
      | false =>
        cases ho : x.outcome with
        | exited s out err =>
          cases s with
          | true =>
            simp only [runLoop, hf, hdis, ho, Bool.false_eq_true, if_false] at hn
            exact ih n hn
          | false =>
            simp only [runLoop, hf, hdis, ho, Bool.false_eq_true, if_false] at hn
            cases hreq : name == "required" with
            | true => simp only [hreq, if_pos rfl] at hn; simp at hn
            | false =>
              simp only [hreq, Bool.false_eq_true, if_false] at hn
              exact ih n hn
        | spawnFailed m =>
          simp only [runLoop, hf, hdis, ho, Bool.false_eq_true, if_false] at hn
          cases hreq : name == "required" with
          | true => simp only [hreq, if_pos rfl] at hn; simp at hn
          | false =>
            simp only [hreq, Bool.false_eq_true, if_false] at hn
            exact ih n hn

/-- Fail-fast behaviour of the required tier: after any prefix of entries
that produce no failure record, the first failure-producing entry ends the
loop — its record is the only error, the skips are those of the prefix, the
executions are those of the prefix plus this entry, and nothing after it
contributes. -/
lemma runLoop_required_failFast (d : Option (List String)) (e : DirEntry)
    (post : List DirEntry) (he : yieldsFailure d e = true) :
    ∀ pre : List DirEntry, (∀ x ∈ pre, yieldsFailure d x = false) →
      runLoop "required" d (pre ++ e :: post) =
        (⟨[failRecord "required" e], (runLoop "required" d pre).1.skipped⟩,
          (runLoop "required" d pre).2 ++ [e]) := by
  intro pre
  induction pre with
  | nil =>
    intro _
    cases hf : e.fileName with
    | none => simp [yieldsFailure, hf] at he
    | some fn =>
      simp only [yieldsFailure, hf, Bool.and_eq_true, Bool.not_eq_true'] at he
      cases ho : e.outcome with
      | exited s out err =>
        cases s with
        | true => rw [ho] at he; simp at he
        | false => simp [runLoop, hf, he.1, ho, failRecord, errMsg]
      | spawnFailed m => simp [runLoop, hf, he.1, ho, failRecord]
  | cons x t ih =>
    intro hpre
    have hx : yieldsFailure d x = false := hpre x (by simp)
    have ihv := ih (fun y hy => hpre y (by simp [hy]))
    cases hf : x.fileName with
    | none => simpa [runLoop, hf] using ihv
    | some fn =>
      cases hdis : isDisabled d fn with
      | true => simp [runLoop, hf, hdis, ihv]
      | false =>
        cases ho : x.outcome with
        | exited s out err =>
          cases s with
          | true => simp [runLoop, hf, hdis, ho, ihv]
          | false => simp [yieldsFailure, hf, hdis, ho] at hx
        | spawnFailed m => simp [yieldsFailure, hf, hdis, ho] at hx

/-- Characterization of the script loop on any tier other than `required`:
every discovered, non-skipped entry is executed, and the errors are exactly
the failure records of the failing entries, in order. -/
lemma runLoop_nonreq (name : String) (hn : (name == "required") = false)
    (d : Option (List String)) :
    ∀ l : List DirEntry,
      (runLoop name d l).2 = l.filter (runsEntry d) ∧
      (runLoop name d l).1.errors =
        (l.filter (fun e => yieldsFailure d e)).map (failRecord name) := by
  intro l
  induction l with
  | nil => simp [runLoop]
  | cons x t ih =>
    cases hf : x.fileName with
    | none =>
      have h1 : runsEntry d x = false := by simp [runsEntry, hf]
      have h2 : yieldsFailure d x = false := by simp [yieldsFailure, hf]
      simpa [runLoop, hf, h1, h2] using ih
    | some fn =>
      cases hdis : isDisabled d fn with
      | true =>
        have h1 : runsEntry d x = false := by simp [runsEntry, hf, hdis]
        have h2 : yieldsFailure d x = false := by simp [yieldsFailure, hf, hdis]
        simpa [runLoop, hf, hdis, h1, h2] using ih
      | false =>
        have h1 : runsEntry d x = true := by simp [runsEntry, hf, hdis]
        cases ho : x.outcome with
        | exited s out err =>
          cases s with
          | true =>
            have h2 : yieldsFailure d x = false := by simp [yieldsFailure, hf, hdis, ho]
            simpa [runLoop, hf, hdis, ho, h1, h2] using ih
          | false =>
            have h2 : yieldsFailure d x = true := by simp [yieldsFailure, hf, hdis, ho]
            simpa [runLoop, hf, hdis, ho, hn, h1, h2, failRecord] using ih
        | spawnFailed m =>
          have h2 : yieldsFailure d x = true := by simp [yieldsFailure, hf, hdis, ho]
          simpa [runLoop, hf, hdis, ho, hn, h1, h2, failRecord] using ih

/-- Lift of `runLoop_executed_mem` through the glob-error case of
`run_scripts`. -/
lemma run_scripts_executed_mem (name : String) (listing : Except String (List DirEntry))
    (d : Option (List String)) (e : DirEntry) (he : e ∈ (run_scripts name listing d).2) :
    ∃ fn, e.fileName = some fn ∧ isDisabled d fn = false := by
  cases listing with
  | error m => simp [run_scripts] at he
  | ok entries => exact runLoop_executed_mem name d _ e he

/-- Lift of `runLoop_skipped_mem` through the glob-error case of
`run_scripts`. -/
lemma run_scripts_skipped_mem (name : String) (listing : Except String (List DirEntry))
    (d : Option (List String)) (n : String)
    (hn : n ∈ (run_scripts name listing d).1.skipped) :
    isDisabled d n = true := by
  cases listing with
  | error m => simp [run_scripts] at hn
  | ok entries => exact runLoop_skipped_mem name d _ n hn

/-- The only bail message the required-checks loop can produce. -/
lemma requiredGo_some_msg (S : List String) :
    ∀ (roots : List InstallRoot) (st st2 : DiagState) (e : String),
      requiredGo S st roots = (st2, some e) →
      e = "required health-check failed, skipping remaining scripts" := by
  intro roots
  induction roots with
  | nil => intro st st2 e h; simp [requiredGo] at h
  | cons r rest ih =>
    intro st st2 e h
    cases hb : r.requiredIsDir with
    | false =>
      rw [requiredGo, hb] at h
      exact ih st st2 e (by simpa using h)
    | true =>
      rcases hrs : run_scripts "required" r.requiredListing (some S) with ⟨res, ex⟩
      simp only [requiredGo, hb, hrs, if_true] at h
      cases hemp : res.errors.isEmpty with
      | true =>
        rw [hemp] at h
        exact ih _ st2 e (by simpa using h)
      | false =>
        rw [hemp] at h
        simp only [Bool.false_eq_true, if_false, Prod.mk.injEq, Option.some.injEq] at h
        exact h.2.symm

/-- Invariant preservation through the required-checks loop: any per-entry
property of executions and per-name property of skips established by
`run_scripts` on the required tier carries over to the final state. -/
lemma requiredGo_state_inv (S : List String) (P : DirEntry → Prop) (Q : String → Prop)
    (hP : ∀ listing e, e ∈ (run_scripts "required" listing (some S)).2 → P e)
    (hQ : ∀ listing n, n ∈ (run_scripts "required" listing (some S)).1.skipped → Q n) :
    ∀ (roots : List InstallRoot) (st : DiagState),
      ((∀ e ∈ st.executed, P e) ∧ (∀ n ∈ st.allSkipped, Q n)) →
      (∀ e ∈ (requiredGo S st roots).1.executed, P e) ∧
      (∀ n ∈ (requiredGo S st roots).1.allSkipped, Q n) := by
  intro roots
  induction roots with
  | nil => intro st hst; simpa [requiredGo] using hst
  | cons r rest ih =>
    intro st hst
    cases hb : r.requiredIsDir with
    | false =>
      rw [requiredGo, hb]
      simpa using ih st hst
    | true =>
      rw [requiredGo, hb]
      simp only [if_pos rfl]
      rcases hrs : run_scripts "required" r.requiredListing (some S) with ⟨res, ex⟩
      have hst2 :
          (∀ e ∈ st.executed ++ ex, P e) ∧ (∀ n ∈ st.allSkipped ++ res.skipped, Q n) := by
        constructor
        · intro e hmem
          rcases List.mem_append.mp hmem with hmem | hmem
          · exact hst.1 e hmem
          · exact hP r.requiredListing e (by rw [hrs]; exact hmem)
        · intro n hmem
          rcases List.mem_append.mp hmem with hmem | hmem
          · exact hst.2 n hmem
          · exact hQ r.requiredListing n (by rw [hrs]; exact hmem)
      cases hemp : res.errors.isEmpty with
      | true => simpa using ih _ hst2
      | false => simpa using hst2

/-- Invariant preservation through the wanted-checks loop. -/
lemma wantedGo_state_inv (S : List String) (P : DirEntry → Prop) (Q : String → Prop)
    (hP : ∀ listing e, e ∈ (run_scripts "wanted" listing (some S)).2 → P e)
    (hQ : ∀ listing n, n ∈ (run_scripts "wanted" listing (some S)).1.skipped → Q n) :
    ∀ (roots : List InstallRoot) (st : DiagState),
      ((∀ e ∈ st.executed, P e) ∧ (∀ n ∈ st.allSkipped, Q n)) →
      (∀ e ∈ (wantedGo S st roots).executed, P e) ∧
      (∀ n ∈ (wantedGo S st roots).allSkipped, Q n) := by
  intro roots
  induction roots with
  | nil => intro st hst; simpa [wantedGo] using hst
  | cons r rest ih =>
    intro st hst
    rw [wantedGo]
    rcases hrs : run_scripts "wanted" r.wantedListing (some S) with ⟨res, ex⟩
    refine ih _ ⟨?_, ?_⟩
    · intro e hmem
      rcases List.mem_append.mp hmem with hmem | hmem
      · exact hst.1 e hmem
      · exact hP r.wantedListing e (by rw [hrs]; exact hmem)
    · intro n hmem
      rcases List.mem_append.mp hmem with hmem | hmem
      · exact hst.2 n hmem
      · exact hQ r.wantedListing n (by rw [hrs]; exact hmem)

/-- The final `path_exists` flag of a non-bailing required-checks loop is the
disjunction of the initial flag with the existence of a required directory
among the roots. -/
lemma requiredGo_pathExists (S : List String) :
    ∀ (roots : List InstallRoot) (st st2 : DiagState),
      requiredGo S st roots = (st2, none) →
      st2.pathExists = (st.pathExists || roots.any (fun r => r.requiredIsDir)) := by
  intro roots
  induction roots with
  | nil =>
    intro st st2 h
    simp only [requiredGo, Prod.mk.injEq] at h
    simp [← h.1]
  | cons r rest ih =>
    intro st st2 h
    cases hb : r.requiredIsDir with
    | false =>
      simp only [requiredGo, hb, Bool.false_eq_true, if_false] at h
      simp [ih st st2 h, hb]
    | true =>
      rcases hrs : run_scripts "required" r.requiredListing (some S) with ⟨res, ex⟩
      simp only [requiredGo, hb, hrs, if_true] at h
      cases hemp : res.errors.isEmpty with
      | false => rw [hemp] at h; simp at h
      | true =>
        rw [hemp] at h
        simp only [if_true] at h
        simp [ih _ st2 h, hb]

/-! ### Claim theorems: diagnostics engine -/

/-- C1: required-tier execution is fail-fast — in the script loop, the first
entry that yields a failure record ends processing for that directory, so
the outcome does not depend on the entries after it; and when a processed
root's required tier produces at least one error, `run_diagnostics` returns
the error `required health-check failed, skipping remaining scripts` at
once, its execution trace containing no entry of the remaining required
root nor of the wanted phase. -/
theorem C1_required_fail_fast :
    (∀ (d : Option (List String)) (pre : List DirEntry) (e : DirEntry) (post : List DirEntry),
      (∀ x ∈ pre, yieldsFailure d x = false) → yieldsFailure d e = true →
      runLoop "required" d (pre ++ e :: post) =
        (⟨[failRecord "required" e], (runLoop "required" d pre).1.skipped⟩,
          (runLoop "required" d pre).2 ++ [e])) ∧
    (∀ (r0 r1 : InstallRoot) (S : List String),
      r0.requiredIsDir = true →
      (run_scripts "required" r0.requiredListing (some S)).1.errors ≠ [] →
      run_diagnostics r0 r1 S =
        ⟨.error "required health-check failed, skipping remaining scripts",
          (run_scripts "required" r0.requiredListing (some S)).1.skipped,
          (run_scripts "required" r0.requiredListing (some S)).2⟩) ∧
    (∀ (r0 r1 : InstallRoot) (S : List String),
      r0.requiredIsDir = false → r1.requiredIsDir = true →
      (run_scripts "required" r1.requiredListing (some S)).1.errors ≠ [] →
      run_diagnostics r0 r1 S =
        ⟨.error "required health-check failed, skipping remaining scripts",
          (run_scripts "required" r1.requiredListing (some S)).1.skipped,
          (run_scripts "required" r1.requiredListing (some S)).2⟩) ∧
    (∀ (r0 r1 : InstallRoot) (S : List String),
      r0.requiredIsDir = true →
      (run_scripts "required" r0.requiredListing (some S)).1.errors = [] →
      r1.requiredIsDir = true →
      (run_scripts "required" r1.requiredListing (some S)).1.errors ≠ [] →
      run_diagnostics r0 r1 S =
        ⟨.error "required health-check failed, skipping remaining scripts",
          (run_scripts "required" r0.requiredListing (some S)).1.skipped ++
            (run_scripts "required" r1.requiredListing (some S)).1.skipped,
          (run_scripts "required" r0.requiredListing (some S)).2 ++
            (run_scripts "required" r1.requiredListing (some S)).2⟩) := by
  refine ⟨fun d pre e post hpre he => runLoop_required_failFast d e post he pre hpre, ?_, ?_, ?_⟩
  · intro r0 r1 S hb0 hne
    rcases hrs : run_scripts "required" r0.requiredListing (some S) with ⟨res, ex⟩
    rw [hrs] at hne
    have hemp : res.errors.isEmpty = false := List.isEmpty_eq_false.mpr hne
    simp [run_diagnostics, diagnosticsRun, requiredGo, hb0, hrs, hemp]
  · intro r0 r1 S hb0 hb1 hne
    rcases hrs : run_scripts "required" r1.requiredListing (some S) with ⟨res, ex⟩
    rw [hrs] at hne
    have hemp : res.errors.isEmpty = false := List.isEmpty_eq_false.mpr hne
    simp [run_diagnostics, diagnosticsRun, requiredGo, hb0, hb1, hrs, hemp]
  · intro r0 r1 S hb0 hok0 hb1 hne
    rcases hrs0 : run_scripts "required" r0.requiredListing (some S) with ⟨res0, ex0⟩
    rcases hrs1 : run_scripts "required" r1.requiredListing (some S) with ⟨res1, ex1⟩
    rw [hrs0] at hok0
    rw [hrs1] at hne
    have hemp0 : res0.errors.isEmpty = true := List.isEmpty_eq_true.mpr hok0
    have hemp1 : res1.errors.isEmpty = false := List.isEmpty_eq_false.mpr hne
    simp [run_diagnostics, diagnosticsRun, requiredGo, hb0, hb1, hrs0, hrs1, hemp0, hemp1]

/-- C1 witness: on a concrete directory a failing required script halts the
loop before a later failing entry, and on concrete roots `run_diagnostics`
aborts with the fixed message, having executed only the first root's entries
up to the failure. -/
theorem C1_required_fail_fast_witness :
    runLoop "required" (some []) [entPass, entFail, entFail2] =
      (⟨["required script /usr/lib/greenboot/check/required.d/bad.sh failed!\nout\nerr"], []⟩,
        [entPass, entFail]) ∧
    run_diagnostics rootFailing rootPassing [] =
      ⟨.error "required health-check failed, skipping remaining scripts", [],
        [entPass, entFail]⟩ := by
  constructor
  · exact (C1_required_fail_fast.1 (some []) [entPass] entFail [entFail2]
      (by decide) (by decide)).trans (by decide)
  · exact (C1_required_fail_fast.2.1 rootFailing rootPassing [] (by decide)
      (by decide)).trans (by decide)

/-- C5: `run_diagnostics` fails with `cannot find any required.d folder` if
and only if neither install root has a required-tier directory; and a root
without that directory is simply skipped — the required phase from any state
behaves exactly as if only the other root were present. -/
theorem C5_missing_required_folder (r0 r1 : InstallRoot) (S : List String) :
    ((run_diagnostics r0 r1 S).result = .error "cannot find any required.d folder" ↔
      (r0.requiredIsDir = false ∧ r1.requiredIsDir = false)) ∧
    (r0.requiredIsDir = false →
      ∀ st : DiagState, requiredGo S st [r0, r1] = requiredGo S st [r1]) ∧
    (r1.requiredIsDir = false →
      ∀ st : DiagState, requiredGo S st [r0, r1] = requiredGo S st [r0]) := by
  refine ⟨⟨?_, ?_⟩, ?_, ?_⟩
  · intro hres
    rcases hreq : requiredGo S ⟨false, [], []⟩ [r0, r1] with ⟨st, opt⟩
    cases opt with
    | some e =>
      have hmsg := requiredGo_some_msg S [r0, r1] _ st e hreq
      rw [run_diagnostics, diagnosticsRun, hreq] at hres
      simp only [Except.error.injEq] at hres
      rw [hres] at hmsg
      exact absurd hmsg (by decide)
    | none =>
      have hpe := requiredGo_pathExists S [r0, r1] _ st hreq
      rw [run_diagnostics, diagnosticsRun, hreq] at hres
      cases hp : st.pathExists with
      | true => simp [hp] at hres
      | false =>
        rw [hp] at hpe
        have h2 := hpe.symm
        simp only [List.any_cons, List.any_nil, Bool.or_false, Bool.false_or,
          Bool.or_eq_false_iff] at h2
        exact h2
  · rintro ⟨hb0, hb1⟩
    simp [run_diagnostics, diagnosticsRun, requiredGo, hb0, hb1]
  · intro hb0 st
    simp [requiredGo, hb0]
  · intro hb1 st
    cases hb0 : r0.requiredIsDir with
    | false => simp [requiredGo, hb0, hb1]
    | true =>
      rcases hrs : run_scripts "required" r0.requiredListing (some S) with ⟨res, ex⟩
      cases hemp : res.errors.isEmpty with
      | true => simp [requiredGo, hb0, hb1, hrs, hemp]
      | false => simp [requiredGo, hb0, hb1, hrs, hemp]

/-- C5 witness: with both roots lacking a required directory the fixed error
is returned; with exactly one root lacking it the required phase equals the
single-root phase. -/
theorem C5_missing_required_folder_witness :
    (run_diagnostics rootNoDir rootNoDir []).result =
      .error "cannot find any required.d folder" ∧
    requiredGo [] ⟨false, [], []⟩ [rootNoDir, rootPassing] =
      requiredGo [] ⟨false, [], []⟩ [rootPassing] := by
  constructor
  · exact (C5_missing_required_folder rootNoDir rootNoDir []).1.mpr ⟨by decide, by decide⟩
  · exact (C5_missing_required_folder rootNoDir rootPassing []).2.1 (by decide) ⟨false, [], []⟩

/-- C6: every tier other than `required` keeps executing through
failures — the script loop executes exactly the discovered, non-skipped
entries whatever their outcomes, its errors being merely the accumulated
failure records; and wanted-tier errors never escalate: a clean required
phase yields an `ok` result whatever the wanted listings hold, while any
error returned by `run_diagnostics` is one of the two required-phase
messages. -/
theorem C6_non_required_continue :
    (∀ (name : String) (d : Option (List String)) (l : List DirEntry), name ≠ "required" →
      (runLoop name d l).2 = l.filter (runsEntry d) ∧
      (runLoop name d l).1.errors =
        (l.filter (fun e => yieldsFailure d e)).map (failRecord name)) ∧
    (∀ (r0 r1 : InstallRoot) (S : List String) (st2 : DiagState),
      requiredGo S ⟨false, [], []⟩ [r0, r1] = (st2, none) → st2.pathExists = true →
      (run_diagnostics r0 r1 S).result =
        .ok (S.dedup.filter (fun n => !(wantedGo S st2 [r0, r1]).allSkipped.contains n))) ∧
    (∀ (r0 r1 : InstallRoot) (S : List String) (msg : String),
      (run_diagnostics r0 r1 S).result = .error msg →
      msg = "required health-check failed, skipping remaining scripts" ∨
      msg = "cannot find any required.d folder") := by
  refine ⟨?_, ?_, ?_⟩
  · intro name d l hn
    exact runLoop_nonreq name (beq_eq_false_iff_ne.mpr hn) d l
  · intro r0 r1 S st2 hreq hp
    simp [run_diagnostics, diagnosticsRun, hreq, hp]
  · intro r0 r1 S msg hres
    rcases hreq : requiredGo S ⟨false, [], []⟩ [r0, r1] with ⟨st, opt⟩
    cases opt with
    | some e =>
      rw [run_diagnostics, diagnosticsRun, hreq] at hres
      simp only [Except.error.injEq] at hres
      exact Or.inl (hres ▸ requiredGo_some_msg S [r0, r1] _ st e hreq)
    | none =>
      rw [run_diagnostics, diagnosticsRun, hreq] at hres
      cases hp : st.pathExists with
      | true => simp [hp] at hres
      | false =>
        simp only [hp, Bool.false_eq_true, if_false, Except.error.injEq] at hres
        exact Or.inr hres.symm

/-- C6 witness: a wanted-tier directory containing a passing script, a
failing script and a failing binary executes all three entries and collects
both failure records; diagnostics over a clean required phase still return
`ok` despite those wanted failures, and a required failure yields the first
fixed message. -/
theorem C6_non_required_continue_witness :
    (runLoop "wanted" (some []) [entPass, entFail, entFail2]).2 =
      [entPass, entFail, entFail2] ∧
    (run_diagnostics rootPassing rootNoDir ["ghost.sh"]).result = .ok ["ghost.sh"] ∧
    ("required health-check failed, skipping remaining scripts" =
        "required health-check failed, skipping remaining scripts" ∨
      "required health-check failed, skipping remaining scripts" =
        "cannot find any required.d folder") := by
  refine ⟨?_, ?_, ?_⟩
  · exact ((C6_non_required_continue.1 "wanted" (some []) [entPass, entFail, entFail2]
      (by decide)).1).trans (by decide)
  · exact (C6_non_required_continue.2.1 rootPassing rootNoDir ["ghost.sh"]
      ⟨true, [], [entPass]⟩ (by decide) (by decide)).trans (by decide)
  · exact C6_non_required_continue.2.2 rootFailing rootPassing []
      "required health-check failed, skipping remaining scripts" (by decide)

/-- C2: the skip list is respected — every entry `run_diagnostics` executes
has a file name outside the skip list, every name it records as skipped is
in the skip list, and on success the returned missing-disabled list holds
exactly the skip-list names that were never skipped anywhere (the set
difference), so no unconsumed skip name is silently dropped. -/
theorem C2_skip_list_respected (r0 r1 : InstallRoot) (S : List String) :
    (∀ e ∈ (run_diagnostics r0 r1 S).executed, ∃ fn, e.fileName = some fn ∧ fn ∉ S) ∧
    (∀ n ∈ (run_diagnostics r0 r1 S).allSkipped, n ∈ S) ∧
    (∀ m, (run_diagnostics r0 r1 S).result = .ok m →
      ∀ n, n ∈ m ↔ (n ∈ S ∧ n ∉ (run_diagnostics r0 r1 S).allSkipped)) := by
  have hconv : ∀ fn : String, isDisabled (some S) fn = false → fn ∉ S := by
    intro fn h
    simpa [isDisabled, List.elem_iff] using h
  have hconv2 : ∀ fn : String, isDisabled (some S) fn = true → fn ∈ S := by
    intro fn h
    simpa [isDisabled, List.elem_iff] using h
  have hPreq : ∀ (listing : Except String (List DirEntry)) (e : DirEntry),
      e ∈ (run_scripts "required" listing (some S)).2 →
      ∃ fn, e.fileName = some fn ∧ fn ∉ S := by
    intro listing e he
    obtain ⟨fn, hf, hd⟩ := run_scripts_executed_mem "required" listing (some S) e he
    exact ⟨fn, hf, hconv fn hd⟩
  have hQreq : ∀ (listing : Except String (List DirEntry)) (n : String),
      n ∈ (run_scripts "required" listing (some S)).1.skipped → n ∈ S :=
    fun listing n hn => hconv2 n (run_scripts_skipped_mem "required" listing (some S) n hn)
  have hPw : ∀ (listing : Except String (List DirEntry)) (e : DirEntry),
      e ∈ (run_scripts "wanted" listing (some S)).2 →
      ∃ fn, e.fileName = some fn ∧ fn ∉ S := by
    intro listing e he
    obtain ⟨fn, hf, hd⟩ := run_scripts_executed_mem "wanted" listing (some S) e he
    exact ⟨fn, hf, hconv fn hd⟩
  have hQw : ∀ (listing : Except String (List DirEntry)) (n : String),
      n ∈ (run_scripts "wanted" listing (some S)).1.skipped → n ∈ S :=
    fun listing n hn => hconv2 n (run_scripts_skipped_mem "wanted" listing (some S) n hn)
  rcases hreq : requiredGo S ⟨false, [], []⟩ [r0, r1] with ⟨st, opt⟩
  have hinv := requiredGo_state_inv S _ _ hPreq hQreq [r0, r1] ⟨false, [], []⟩
    (by constructor <;> simp)
  rw [hreq] at hinv
  cases opt with
  | some e =>
    have hout : run_diagnostics r0 r1 S = ⟨.error e, st.allSkipped, st.executed⟩ := by
      rw [run_diagnostics, diagnosticsRun, hreq]
    refine ⟨?_, ?_, ?_⟩
    · rw [hout]; exact hinv.1
    · rw [hout]; exact hinv.2
    · intro m hm; rw [hout] at hm; exact absurd hm (by simp)
  | none =>
    cases hp : st.pathExists with
    | false =>
      have hout : run_diagnostics r0 r1 S =
          ⟨.error "cannot find any required.d folder", st.allSkipped, st.executed⟩ := by
        rw [run_diagnostics, diagnosticsRun, hreq]; simp [hp]
      refine ⟨?_, ?_, ?_⟩
      · rw [hout]; exact hinv.1
      · rw [hout]; exact hinv.2
      · intro m hm; rw [hout] at hm; exact absurd hm (by simp)
    | true =>
      have hw := wantedGo_state_inv S _ _ hPw hQw [r0, r1] st hinv
      have hout : run_diagnostics r0 r1 S =
          ⟨.ok (S.dedup.filter fun n => !(wantedGo S st [r0, r1]).allSkipped.contains n),
            (wantedGo S st [r0, r1]).allSkipped, (wantedGo S st [r0, r1]).executed⟩ := by
        rw [run_diagnostics, diagnosticsRun, hreq]; simp [hp]
      refine ⟨?_, ?_, ?_⟩
      · rw [hout]; exact hw.1
      · rw [hout]; exact hw.2
      · intro m hm n
        rw [hout] at hm ⊢
        simp only [Except.ok.injEq] at hm
        subst hm
        simp [List.mem_filter, List.mem_dedup, List.elem_iff]

/-- C2 witness: with the two failing required entries and one on-disk-absent
name in the skip list, diagnostics succeed, the absent name is the exact
missing-disabled payload, and the returned iff holds at that name. -/
theorem C2_skip_list_respected_witness :
    (run_diagnostics rootFailing rootPassing ["bad.sh", "bad2", "ghost.sh"]).result =
      .ok ["ghost.sh"] ∧
    ("ghost.sh" ∈ (["ghost.sh"] : List String) ↔
      ("ghost.sh" ∈ (["bad.sh", "bad2", "ghost.sh"] : List String) ∧
        "ghost.sh" ∉
          (run_diagnostics rootFailing rootPassing ["bad.sh", "bad2", "ghost.sh"]).allSkipped)) :=
  ⟨by decide,
    (C2_skip_list_respected rootFailing rootPassing ["bad.sh", "bad2", "ghost.sh"]).2.2
      ["ghost.sh"] (by decide) "ghost.sh"⟩

end Greenboot
